import Mathlib

/-!
# File-Sync: verification of the incremental synchronization pipeline

A shallow embedding of the core of the File-Sync repository, together with
theorems settling the specification claims about it.

Embedded components (each definition is translated from the named Python
source):

* `src/infra/file_processing/chunking.py` — `DocumentChunker` and
  `SmartChunker` (text chunking);
* `src/workers/celery_worker_functional.py` — `_get_valid_access_token`
  (token resolution used by the sync and prune tasks),
  `connector_doc_fetching_task` (listing pass bookkeeping) and
  `_prune_deleted_documents` (reconciliation);
* `src/connectors/box/connector.py` — `BoxConnector.list_all_items` /
  `_walk_folder` (remote enumeration and filtering);
* `src/infra/storage/local.py` — `LocalStorage.cleanup_orphaned_files`;
* `src/infra/document_index/elasticsearch/advanced_index.py` —
  `AdvancedElasticsearchIndex.hybrid_search` (empty-query guard).

Python strings are modelled as `List Char`; machine integers do not occur
(Python integers are unbounded, `Nat`/`Int` are exact models).
-/

set_option maxRecDepth 40000

/-- Python strings are modelled as lists of characters. -/
abbrev Str := List Char

namespace FileSync

/-! ## Python string primitives

The inputs handled by the repository are ASCII text, so Python's
whitespace classes (`str.strip`, `str.split`, regex `\s`) are modelled by
the ASCII whitespace set. -/

/-- Python whitespace (`str.strip`, `str.split()`, regex `\s`) on ASCII:
space, tab, newline, carriage return, vertical tab, form feed. -/
def isPySpace (c : Char) : Bool :=
  c == ' ' || c == '\t' || c == '\n' || c == '\r' ||
  c == Char.ofNat 11 || c == Char.ofNat 12

/-- Python `str.strip()`: remove leading and trailing whitespace. -/
def pyStrip (s : Str) : Str :=
  ((s.dropWhile isPySpace).reverse.dropWhile isPySpace).reverse

/-- Python `re.sub(r'\s+', ' ', s)`: replace every maximal whitespace run
by a single space (`inRun` records whether the previous character was part
of a whitespace run already replaced). -/
def collapseWSAux (inRun : Bool) : Str → Str
  | [] => []
  | c :: rest =>
    if isPySpace c then
      if inRun then collapseWSAux true rest
      else ' ' :: collapseWSAux true rest
    else c :: collapseWSAux false rest

/-- Python `re.sub(r'\s+', ' ', s)`. -/
def collapseWS (s : Str) : Str := collapseWSAux false s

/-- Python `str.split()` (no separator): split on whitespace runs,
discarding empty pieces. -/
def pySplitWS (s : Str) : List Str :=
  go [] s
where
  go (cur : Str) : Str → List Str
    | [] => if cur = [] then [] else [cur.reverse]
    | c :: rest =>
      if isPySpace c then
        if cur = [] then go [] rest else cur.reverse :: go [] rest
      else go (c :: cur) rest

/-- Python `" ".join(ws)`. -/
def joinSpace (ws : List Str) : Str := List.intercalate [' '] ws

/-- ASCII `[A-Z]` (the regex class used by the sentence splitter). -/
def isUpperAZ (c : Char) : Bool := 'A' ≤ c && c ≤ 'Z'

/-- ASCII `\d` (the regex class used by the sentence splitter). -/
def isDigit09 (c : Char) : Bool := '0' ≤ c && c ≤ '9'

/-! ## Chunking (`src/infra/file_processing/chunking.py`) -/

/-- `DocumentChunk` (chunking.py).  The `metadata` dict always carries the
keys `parent_doc_id` and `chunk_index` set by `_create_chunk` (and mutated
by `SmartChunker`); they are modelled as the two `md_` fields. -/
structure DocumentChunk where
  chunk_id : Str
  text : Str
  chunk_index : Nat
  start_char : Nat
  end_char : Nat
  token_count : Nat
  md_parent_doc_id : Str
  md_chunk_index : Nat
deriving Repr, DecidableEq

/-- Constructor parameters of `DocumentChunker.__init__`
(`chunk_size`, `overlap_size`, `min_chunk_size`). -/
structure ChunkerConfig where
  chunk_size : Nat := 512
  overlap_size : Nat := 50
  min_chunk_size : Nat := 100
deriving Repr, DecidableEq

/-- `_estimate_tokens`: `max(1, len(text) // 4)`. -/
def estimateTokens (text : Str) : Nat := max 1 (text.length / 4)

/-- A sentence-boundary position of the pattern
`(?<=[.!?])\s+(?=[A-Z])|(?<=\.)\s+(?=\d)` on whitespace-collapsed text
(after `re.sub(r'\s+', ' ', ...)` the runs are single spaces and no `\n`
remains, so the third regex alternative of `_split_into_sentences` cannot
match). -/
def isSentBoundary (p n : Char) : Bool :=
  (p == '.' || p == '!' || p == '?') && (isUpperAZ n || (p == '.' && isDigit09 n))

/-- `re.split` of the sentence pattern over whitespace-collapsed text:
cut at each single space that follows `[.!?]` and precedes `[A-Z]`
(or follows `.` and precedes a digit), dropping the space.  `fuel` only
bounds the recursion (every step consumes at least one character, so
`fuel = s.length` never runs out). -/
def splitSentGo (acc : Str) : Nat → Str → List Str
  | _, [] => [acc.reverse]
  | 0, l => [acc.reverse ++ l]
  | fuel + 1, p :: rest =>
    match rest with
    | ' ' :: n :: rest2 =>
      if isSentBoundary p n then
        (acc.reverse ++ [p]) :: splitSentGo [] fuel (n :: rest2)
      else splitSentGo (p :: acc) fuel rest
    | _ => splitSentGo (p :: acc) fuel rest

/-- `re.split` of the sentence pattern over whitespace-collapsed text. -/
def splitAtSentenceBounds (s : Str) : List Str := splitSentGo [] s.length s

/-- `DocumentChunker._split_into_sentences`: collapse whitespace, strip,
split on sentence boundaries, keep stripped pieces longer than 10. -/
def splitIntoSentences (text : Str) : List Str :=
  (splitAtSentenceBounds (collapseWS (pyStrip text))).filterMap fun s =>
    let t := pyStrip s
    if t.length > 10 then some t else none

/-- `DocumentChunker._get_overlap_text`: the last `overlap_size` words of
the chunk, rejoined with single spaces (the whole text when it has at most
`overlap_size` words; Python `words[-0:]` is the whole list). -/
def getOverlapText (cfg : ChunkerConfig) (text : Str) : Str :=
  let words := pySplitWS text
  if words.length ≤ cfg.overlap_size then text
  else if cfg.overlap_size = 0 then joinSpace words
  else joinSpace (words.drop (words.length - cfg.overlap_size))

/-- `f"{doc_id}#chunk_{chunk_index}"`. -/
def mkChunkId (docId : Str) (i : Nat) : Str :=
  docId ++ "#chunk_".data ++ (Nat.repr i).data

/-- `DocumentChunker._create_chunk`. -/
def createChunk (docId text : Str) (chunkIndex startChar endChar : Nat) :
    DocumentChunk :=
  { chunk_id := mkChunkId docId chunkIndex
    text := pyStrip text
    chunk_index := chunkIndex
    start_char := startChar
    end_char := endChar
    token_count := estimateTokens text
    md_parent_doc_id := docId
    md_chunk_index := chunkIndex }

/-- Loop state of `DocumentChunker.chunk_document`
(`chunks`, `current_chunk_text`, `current_start`, `chunk_index`,
`sentence_start`). -/
structure ChunkLoopState where
  chunks : List DocumentChunk
  current : Str
  currentStart : Nat
  chunkIndex : Nat
  sentenceStart : Nat
deriving Repr, DecidableEq

/-- One iteration of the sentence loop of `DocumentChunker.chunk_document`. -/
def chunkLoopStep (cfg : ChunkerConfig) (docId : Str) (st : ChunkLoopState)
    (sentence : Str) : ChunkLoopState :=
  let potential := st.current ++ (if st.current ≠ [] then [' '] else []) ++ sentence
  let st' :=
    if estimateTokens potential > cfg.chunk_size ∧ st.current ≠ [] then
      let chunk := createChunk docId st.current st.chunkIndex st.currentStart
        st.sentenceStart
      let overlap := getOverlapText cfg st.current
      { st with
        chunks := st.chunks ++ [chunk]
        current := overlap ++ (if overlap ≠ [] then [' '] else []) ++ sentence
        currentStart := st.sentenceStart - overlap.length
        chunkIndex := st.chunkIndex + 1 }
    else
      { st with
        current := potential
        currentStart :=
          if pyStrip potential = [] then st.sentenceStart else st.currentStart }
  { st' with sentenceStart := st.sentenceStart + sentence.length + 1 }

/-- The final-chunk step of `DocumentChunker.chunk_document`. -/
def chunkFinalize (cfg : ChunkerConfig) (docId : Str) (textLen : Nat)
    (st : ChunkLoopState) : List DocumentChunk :=
  if pyStrip st.current ≠ [] ∧ (pyStrip st.current).length ≥ cfg.min_chunk_size then
    st.chunks ++ [createChunk docId st.current st.chunkIndex st.currentStart textLen]
  else st.chunks

/-- `DocumentChunker.chunk_document`. -/
def chunkDocument (cfg : ChunkerConfig) (docId text : Str) :
    List DocumentChunk :=
  if text = [] ∨ (pyStrip text).length < cfg.min_chunk_size then []
  else
    let sentences := splitIntoSentences text
    if sentences = [] then []
    else
      chunkFinalize cfg docId text.length
        (sentences.foldl (chunkLoopStep cfg docId)
          ⟨[], [], 0, 0, 0⟩)

/-- A paragraph separator of `re.split(r'\n\s*\n', s)` starts at a `'\n'`
whose maximal whitespace run contains a further newline; the greedy `\s*`
extends the match through the last newline of that run.  `lastNLOffset`
gives the offset of that last newline inside the run. -/
def lastNLOffset (run : Str) : Nat :=
  run.length - 1 - (run.reverse.takeWhile (fun c => ¬ c == '\n')).length

/-- `re.split(r'\n\s*\n', s)`: cut at each maximal whitespace run that
starts with `'\n'` and contains at least two newlines, consuming the run
up to its last newline.  `fuel` only bounds the recursion (every step
consumes at least one character, so `fuel = s.length` never runs out). -/
def splitParaSepsGo (acc : Str) : Nat → Str → List Str
  | _, [] => [acc.reverse]
  | 0, l => [acc.reverse ++ l]
  | fuel + 1, c :: rest =>
    if c = '\n' then
      let run := (c :: rest).takeWhile isPySpace
      if 2 ≤ run.count '\n' then
        acc.reverse ::
          splitParaSepsGo [] fuel ((c :: rest).drop (lastNLOffset run + 1))
      else splitParaSepsGo (c :: acc) fuel rest
    else splitParaSepsGo (c :: acc) fuel rest

/-- `re.split(r'\n\s*\n', s)`. -/
def splitParaSeps (s : Str) : List Str := splitParaSepsGo [] s.length s

/-- `SmartChunker._split_into_paragraphs`: split the stripped text on
blank-line separators and keep stripped paragraphs longer than 50. -/
def splitIntoParagraphs (text : Str) : List Str :=
  (splitParaSeps (pyStrip text)).filterMap fun p =>
    let t := pyStrip p
    if t.length > 50 then some t else none

/-- The renumbering loop of `SmartChunker.chunk_document` applied to the
recursive sub-chunks of an oversized paragraph: `chunk_id` and the
metadata fields are rewritten to consecutive indices under the parent
document, but the `chunk_index` dataclass field is left untouched. -/
def renumberParaChunks (docId : Str) (start : Nat) :
    List DocumentChunk → List DocumentChunk
  | [] => []
  | pc :: rest =>
    { pc with
      chunk_id := mkChunkId docId start
      md_parent_doc_id := docId
      md_chunk_index := start } :: renumberParaChunks docId (start + 1) rest

/-- Loop state of `SmartChunker.chunk_document` (`chunks`,
`current_chunk_text`, `current_start`, `chunk_index`, `para_start`). -/
structure SmartLoopState where
  chunks : List DocumentChunk
  current : Str
  currentStart : Nat
  chunkIndex : Nat
  paraStart : Nat
deriving Repr, DecidableEq

/-- One iteration of the paragraph loop of `SmartChunker.chunk_document`. -/
def smartLoopStep (cfg : ChunkerConfig) (docId : Str) (st : SmartLoopState)
    (paragraph : Str) : SmartLoopState :=
  let potential :=
    st.current ++ (if st.current ≠ [] then '\n' :: ['\n'] else []) ++ paragraph
  let st' :=
    if estimateTokens potential > cfg.chunk_size ∧ st.current ≠ [] then
      let chunk := createChunk docId st.current st.chunkIndex st.currentStart
        st.paraStart
      let chunks1 := st.chunks ++ [chunk]
      if estimateTokens paragraph > cfg.chunk_size then
        let paraChunks := chunkDocument cfg
          (docId ++ "_para_".data ++ (Nat.repr st.chunkIndex).data) paragraph
        { st with
          chunks := chunks1 ++ renumberParaChunks docId st.chunkIndex paraChunks
          chunkIndex := st.chunkIndex + paraChunks.length
          current := []
          currentStart := st.paraStart + paragraph.length + 2 }
      else
        { st with
          chunks := chunks1
          current := paragraph
          currentStart := st.paraStart
          chunkIndex := st.chunkIndex + 1 }
    else
      { st with
        current := potential
        currentStart :=
          if pyStrip potential = [] then st.paraStart else st.currentStart }
  { st' with paraStart := st.paraStart + paragraph.length + 2 }

/-- `SmartChunker.chunk_document`. -/
def smartChunkDocument (cfg : ChunkerConfig) (docId text : Str) :
    List DocumentChunk :=
  if text = [] ∨ (pyStrip text).length < cfg.min_chunk_size then []
  else
    let paragraphs := splitIntoParagraphs text
    if paragraphs = [] then chunkDocument cfg docId text
    else
      chunkFinalize cfg docId text.length
        (let st := paragraphs.foldl (smartLoopStep cfg docId)
          ⟨[], [], 0, 0, 0⟩
         { chunks := st.chunks, current := st.current,
           currentStart := st.currentStart, chunkIndex := st.chunkIndex,
           sentenceStart := st.paraStart })

/-! ## Token resolution (`_get_valid_access_token`,
`src/workers/celery_worker_functional.py`)

The same code appears inside `connector_doc_fetching_task` and (inlined)
in `_prune_deleted_documents`; both are modelled by `getValidAccessToken`.
Time is modelled in seconds as `Int`; the 5-minute margin is 300. -/

/-- The raw `expires_at` value held in the credential JSON, as seen by
`_parse_expires_at`: the key may be missing, hold an unparseable string
(`datetime.fromisoformat` raises), or parse to a timestamp. -/
inductive ExpiryRaw where
  | absent
  | unparseable
  | parsed (t : Int)
deriving Repr, DecidableEq

/-- `_parse_expires_at`: `None`/parse failure give `None`. -/
def parseExpiresAt : ExpiryRaw → Option Int
  | .absent => none
  | .unparseable => none
  | .parsed t => some t

/-- The credential JSON fields read and written by
`_get_valid_access_token`.  Dictionary values are `Option Str` (`none` =
key missing or `None`). -/
structure WorkerCreds where
  access_token : Option Str := none
  box_access_token : Option Str := none
  refresh_token : Option Str := none
  box_refresh_token : Option Str := none
  expires_at : ExpiryRaw := .absent
  client_id : Option Str := none
  client_secret : Option Str := none
deriving Repr, DecidableEq

/-- Python `a or b` on optional strings: `None` and `""` are falsy. -/
def pyOrStr (a b : Option Str) : Option Str :=
  match a with
  | some s => if s = [] then b else some s
  | none => b

/-- Python truthiness of an optional string. -/
def truthyStr : Option Str → Bool
  | some s => decide (s ≠ [])
  | none => false

/-- `creds.get("access_token") or creds.get("box_access_token")`. -/
def credAccess (c : WorkerCreds) : Option Str :=
  pyOrStr c.access_token c.box_access_token

/-- `creds.get("refresh_token") or creds.get("box_refresh_token")`. -/
def credRefresh (c : WorkerCreds) : Option Str :=
  pyOrStr c.refresh_token c.box_refresh_token

/-- `need_refresh = exp is None or now >= exp - timedelta(minutes=5)`. -/
def needRefresh (now : Int) (c : WorkerCreds) : Bool :=
  match parseExpiresAt c.expires_at with
  | none => true
  | some t => decide (now ≥ t - 300)

/-- The dictionary returned by `BoxConnector.refresh_tokens`
(`connectors/box/auth.py`): `access_token` / `refresh_token` are the
provider payload values (possibly `None`), `expires_at` is always a
datetime computed from `expires_in`. -/
structure RefreshToks where
  access_token : Option Str := none
  refresh_token : Option Str := none
  expires_at : Int := 0
deriving Repr, DecidableEq

/-- Result of one call of `_get_valid_access_token`: the returned token
(`none` models the `RuntimeError` raise), the credential JSON after the
call, whether a refresh exchange was attempted, and whether the updated
credential was written back to the credential store. -/
structure TokenStep where
  result : Option Str
  creds : WorkerCreds
  exchanged : Bool
  persisted : Bool
deriving Repr, DecidableEq

/-- `_get_valid_access_token` (celery_worker_functional.py).  `exchange`
is the outcome of `connector.refresh_tokens`: `some toks` on success,
`none` when the token-endpoint call raises (the `except` path, which
logs and continues). `envClientId`/`envClientSecret` model
`os.getenv("BOX_CLIENT_ID"/"BOX_CLIENT_SECRET")`. -/
def getValidAccessToken (now : Int) (c : WorkerCreds)
    (exchange : Option RefreshToks)
    (envClientId envClientSecret : Option Str) : TokenStep :=
  let access := credAccess c
  let refresh := credRefresh c
  if needRefresh now c ∧ truthyStr refresh then
    match exchange with
    | some toks =>
      let access' := pyOrStr toks.access_token access
      let newRefresh := pyOrStr toks.refresh_token refresh
      let creds' : WorkerCreds :=
        { c with
          access_token := access'
          refresh_token := newRefresh
          expires_at := .parsed toks.expires_at
          client_id := pyOrStr c.client_id envClientId
          client_secret := pyOrStr c.client_secret envClientSecret }
      { result := if truthyStr access' then access' else none
        creds := creds'
        exchanged := true
        persisted := true }
    | none =>
      { result := if truthyStr access then access else none
        creds := c
        exchanged := true
        persisted := false }
  else
    { result := if truthyStr access then access else none
      creds := c
      exchanged := false
      persisted := false }

/-! ## Listing pass bookkeeping (`connector_doc_fetching_task`,
`src/workers/celery_worker_functional.py`)

The relevant database state: the `document` table (ids), the
`document_by_connector_credential_pair` join table, and the
`connector_credential_pair` counters touched on completion. -/

/-- `"box:" `, the provider prefix of document ids. -/
def boxPrefix : Str := "box:".data

/-- The database rows the listing pass reads and writes. -/
structure ListingState where
  docs : List Str
  memb : List (Str × Nat)
  totalDocsIndexed : Option Nat
deriving Repr, DecidableEq

/-- Outcome of the listing pass: the state after the per-item loop and
the completion updates of `index_attempt` / `connector_credential_pair`. -/
structure ListingOutcome where
  docs : List Str
  memb : List (Str × Nat)
  documentsProcessed : Nat
  attemptSuccess : Bool
  newDocsIndexed : Nat
  lastAttemptSuccess : Bool
  lastSuccessfulTimeSet : Bool
  totalDocsIndexed : Nat
deriving Repr, DecidableEq

/-- One iteration of the `for item in items` loop: `doc_id = f"box:{id}"`;
insert the document row unless it exists; insert the membership row with
`ON CONFLICT DO NOTHING`. -/
def listingStep (ccPairId : Nat) (st : ListingState × Nat) (itemId : Str) :
    ListingState × Nat :=
  let docId := boxPrefix ++ itemId
  let docs' := if docId ∈ st.1.docs then st.1.docs else st.1.docs ++ [docId]
  let memb' :=
    if (docId, ccPairId) ∈ st.1.memb then st.1.memb
    else st.1.memb ++ [(docId, ccPairId)]
  (⟨docs', memb', st.1.totalDocsIndexed⟩, st.2 + 1)

/-- The listing section of `connector_doc_fetching_task`: process every
item yielded by `list_all_items`, then mark the attempt `SUCCESS` with
`new_docs_indexed = documents_processed` and update the pair's
`last_successful_index_time`, `last_attempt_status` and
`total_docs_indexed = COALESCE(total_docs_indexed, 0) + documents_processed`. -/
def runListing (ccPairId : Nat) (st : ListingState) (itemIds : List Str) :
    ListingOutcome :=
  let loop := itemIds.foldl (listingStep ccPairId) (st, 0)
  { docs := loop.1.docs
    memb := loop.1.memb
    documentsProcessed := loop.2
    attemptSuccess := true
    newDocsIndexed := loop.2
    lastAttemptSuccess := true
    lastSuccessfulTimeSet := true
    totalDocsIndexed := loop.1.totalDocsIndexed.getD 0 + loop.2 }

/-! ## Reconciliation (`_prune_deleted_documents`,
`src/workers/celery_worker_functional.py`), with
`LocalStorage.cleanup_orphaned_files` (`src/infra/storage/local.py`) and
the Elasticsearch cleanup loop. -/

/-- Python `s.replace('box:', '')`: remove the non-overlapping
occurrences of `"box:"`, scanning left to right (used by
`get_indexed_documents` to derive `box_file_id` from a document id). -/
def replaceBox : Str → Str
  | 'b' :: 'o' :: 'x' :: ':' :: rest => replaceBox rest
  | c :: rest => c :: replaceBox rest
  | [] => []

/-- The state touched by a prune pass: the `document` table, the
membership join table, the locally cached copies (keyed by the box file
id encoded in the file name), and the ids having search-index entries. -/
structure PruneState where
  docs : List Str
  memb : List (Str × Nat)
  localFiles : List Str
  esIds : List Str
deriving Repr, DecidableEq

/-- The `db_ids` query of `_prune_deleted_documents`: ids in `document`
that are joined to this pair in the membership table and match
`LIKE 'box:%'`. -/
def trackedIds (st : PruneState) (ccPairId : Nat) : List Str :=
  st.docs.filter fun d => boxPrefix.isPrefixOf d && (d, ccPairId) ∈ st.memb

/-- `to_remove = db_ids - prefixed_box_ids` where
`prefixed_box_ids = {f"box:{fid}" for fid in box_file_ids}`. -/
def toRemove (st : PruneState) (ccPairId : Nat) (remoteIds : List Str) :
    List Str :=
  (trackedIds st ccPairId).filter fun d =>
    decide (d ∉ remoteIds.map (boxPrefix ++ ·))

/-- One iteration of the `for doc_id in to_remove` loop: delete the
membership row for this pair; if no membership row for any pair remains,
delete the document row and count it. -/
def pruneStep (ccPairId : Nat) (st : PruneState × Nat) (d : Str) :
    PruneState × Nat :=
  let memb' := st.1.memb.filter fun p => decide (¬ (p.1 = d ∧ p.2 = ccPairId))
  let otherCount := (memb'.filter fun p => decide (p.1 = d)).length
  if otherCount = 0 then
    (⟨st.1.docs.filter (fun x => decide (x ≠ d)), memb', st.1.localFiles,
      st.1.esIds⟩, st.2 + 1)
  else
    (⟨st.1.docs, memb', st.1.localFiles, st.1.esIds⟩, st.2)

/-- `get_indexed_documents` (local.py): the box file ids of the documents
currently in the `document` table with `id LIKE 'box:%'`. -/
def indexedBoxIds (docs : List Str) : List Str :=
  (docs.filter fun d => boxPrefix.isPrefixOf d).map replaceBox

/-- `cleanup_orphaned_files` (local.py): delete every local copy whose
box file id no longer belongs to an indexed document. -/
def cleanupOrphanedFiles (docs localFiles : List Str) : List Str :=
  localFiles.filter fun b => decide (b ∈ indexedBoxIds docs)

/-- The `other_count` query of the prune loop, relative to a membership
table: rows for `d` that survive deleting the `(d, ccPairId)` link, i.e.
membership links of other scopes. -/
def otherScopeCount (memb : List (Str × Nat)) (ccPairId : Nat) (d : Str) :
    Nat :=
  ((memb.filter fun p => decide (¬ (p.1 = d ∧ p.2 = ccPairId))).filter
    fun p => decide (p.1 = d)).length

/-- Result of one `_prune_deleted_documents` pass. -/
structure PruneOutcome where
  state : PruneState
  removedFromDb : Nat
  removed : List Str
deriving Repr, DecidableEq

/-- `_prune_deleted_documents`, after the remote listing produced
`remoteIds` (`box_file_ids`): run the removal loop over `to_remove`, then
`cleanup_orphaned_files`, then delete each id in `to_remove` from the
search index. -/
def prunePass (ccPairId : Nat) (st : PruneState) (remoteIds : List Str) :
    PruneOutcome :=
  let rem := toRemove st ccPairId remoteIds
  let loop := rem.foldl (pruneStep ccPairId) (st, 0)
  let st1 := loop.1
  let st2 := { st1 with
    localFiles := cleanupOrphanedFiles st1.docs st1.localFiles
    esIds := st1.esIds.filter fun i => decide (i ∉ rem) }
  { state := st2, removedFromDb := loop.2, removed := rem }

/-! ## Remote enumeration (`BoxConnector.list_all_items` / `_walk_folder`,
`src/connectors/box/connector.py`)

A folder's full `entries` sequence (the pagination loop concatenates the
pages of one folder) is modelled as the node's child list. -/

mutual

/-- An entry of the Box `folders/{id}/items` listing. -/
inductive BoxEntry where
  | folder (id : Str) (name : Str) (children : BoxEntries)
  | file (id : Str) (name : Str) (size : Option Nat) (itemStatus : Str)

/-- A folder's `entries` sequence. -/
inductive BoxEntries where
  | nil
  | cons (e : BoxEntry) (es : BoxEntries)

end

/-- Build a `BoxEntries` sequence from a list literal. -/
def BoxEntries.ofList : List BoxEntry → BoxEntries
  | [] => .nil
  | e :: es => .cons e (BoxEntries.ofList es)

/-- The `FileItem` fields produced by `_walk_folder` (connectors/base). -/
structure FileItem where
  id : Str
  name : Str
  path : Str
  size_bytes : Option Nat
deriving Repr, DecidableEq

/-- The `config` keys consulted by `list_all_items`. -/
structure WalkConfig where
  include_exts : List Str := []
  max_size_mb : Option Nat := none
deriving Repr, DecidableEq

/-- Python `str.lower()` on ASCII. -/
def pyLower (s : Str) : Str := s.map Char.toLower

/-- Python `e.lower().lstrip(".")`: the normalisation applied to each
configured extension. -/
def normalizeExt (e : Str) : Str := (pyLower e).dropWhile (· == '.')

/-- `include_exts = {e.lower().lstrip(".") for e in ...}` (membership in
the set is what matters). -/
def normalizedExts (cfg : WalkConfig) : List Str :=
  cfg.include_exts.map normalizeExt

/-- `name.rsplit(".", 1)[-1].lower() if "." in name else ""`. -/
def extOf (name : Str) : Str :=
  if '.' ∈ name then
    pyLower ((name.reverse.takeWhile (fun c => ¬ c == '.')).reverse)
  else []

/-- `max_size = int(mb) * 1024 * 1024` when configured. -/
def maxSizeBytes (cfg : WalkConfig) : Option Nat :=
  cfg.max_size_mb.map (· * 1024 * 1024)

/-- The `allowed(name, size)` closure of `list_all_items`. -/
def allowedItem (cfg : WalkConfig) (name : Str) (size : Option Nat) : Bool :=
  if normalizedExts cfg ≠ [] ∧ extOf name ∉ normalizedExts cfg then false
  else
    match maxSizeBytes cfg, size with
    | some m, some n => decide (n ≤ m)
    | _, _ => true

/-- `f"{path}/{name}" if path else name`: the sub-path for recursing
into a folder. -/
def subPathOf (path name : Str) : Str :=
  if path ≠ [] then path ++ '/' :: name else name

mutual

/-- `_walk_folder` over one entry: recurse into folders unconditionally,
skip trashed files, yield files passing `allowed`. -/
def walkEntry (cfg : WalkConfig) (path : Str) : BoxEntry → List FileItem
  | .folder _ name children => walkEntries cfg (subPathOf path name) children
  | .file id name size itemStatus =>
    if itemStatus = "trashed".data then []
    else if allowedItem cfg name size then
      [{ id := id, name := name, path := path, size_bytes := size }]
    else []

/-- The `for e in entries` loop of `_walk_folder`, in page order. -/
def walkEntries (cfg : WalkConfig) (path : Str) : BoxEntries → List FileItem
  | .nil => []
  | .cons e es => walkEntry cfg path e ++ walkEntries cfg path es

end

/-- `list_all_items`: `_walk_folder(client, headers, folder_id, path="")`
for each configured root folder id; `rootEntries` holds each root
folder's entry list. -/
def listAllItems (cfg : WalkConfig) (rootEntries : List BoxEntries) :
    List FileItem :=
  (rootEntries.map (walkEntries cfg [])).flatten

/-- A file entry of the remote tree together with the path it sits at
(specification-side view of the forest, ignoring all filters). -/
structure RawFile where
  id : Str
  name : Str
  path : Str
  size : Option Nat
  status : Str
deriving Repr, DecidableEq

mutual

/-- Every file of an entry with its path, unfiltered: the enumeration a
walk would produce if it recursed folders unconditionally and applied no
file filter at all. -/
def allFilesEntry (path : Str) : BoxEntry → List RawFile
  | .folder _ name children => allFilesEntries (subPathOf path name) children
  | .file id name size itemStatus =>
    [{ id := id, name := name, path := path, size := size,
       status := itemStatus }]

/-- Every file of an entry sequence with its path, unfiltered. -/
def allFilesEntries (path : Str) : BoxEntries → List RawFile
  | .nil => []
  | .cons e es => allFilesEntry path e ++ allFilesEntries path es

end

/-- Every file of the forest with its path, unfiltered. -/
def allFilesForest (rootEntries : List BoxEntries) : List RawFile :=
  (rootEntries.map (allFilesEntries [])).flatten

/-- The per-file admission test of `_walk_folder`: not trashed, and
passing the extension/size filter. -/
def keepFile (cfg : WalkConfig) (f : RawFile) : Bool :=
  !(f.status == "trashed".data) && allowedItem cfg f.name f.size

/-- The `FileItem` built from an admitted file entry. -/
def rawToItem (f : RawFile) : FileItem :=
  { id := f.id, name := f.name, path := f.path, size_bytes := f.size }

/-! ## Hybrid search (`AdvancedElasticsearchIndex.hybrid_search`,
`src/infra/document_index/elasticsearch/advanced_index.py`)

Only the dispatch of `hybrid_search` is modelled: either the empty-query
early return (no index query, no embedding call), or a handoff to
`_hybrid_search_with_embeddings` / `_keyword_only_search` with the
computed filter clauses.  Scoring weights are passed through untouched,
so they stay polymorphic (they are floats in the source). -/

/-- A filter value: scalar (`term` clause) or list (`terms` clause). -/
inductive FilterValue where
  | scalar (v : Str)
  | list (vs : List Str)
deriving Repr, DecidableEq

/-- An entry of `filter_clauses`. -/
inductive FilterClause where
  | term (field : Str) (v : Str)
  | terms (field : Str) (vs : List Str)
deriving Repr, DecidableEq

/-- `filter_clauses` built from the `filters` dict. -/
def buildFilterClauses : Option (List (Str × FilterValue)) → List FilterClause
  | none => []
  | some fs => fs.map fun fv =>
    match fv.2 with
    | .scalar v => .term fv.1 v
    | .list vs => .terms fv.1 vs

/-- What a `hybrid_search` call does: return `{"hits": {"hits": []},
"took": 0}` immediately, or issue a search (with or without an embedding
call) against the index. -/
inductive SearchAction (W : Type) where
  | earlyReturn (hits : List Str) (took : Nat)
  | embeddingSearch (query : Str) (size : Nat) (semanticWeight keywordWeight : W)
      (clauses : List FilterClause)
  | keywordSearch (query : Str) (size : Nat) (clauses : List FilterClause)
deriving DecidableEq

/-- `hybrid_search`: empty/whitespace queries return an empty result with
`took = 0` before any filter building, embedding call or index query;
otherwise dispatch on `enable_embeddings and embedding_service`. -/
def hybridSearch {W : Type} (query : Str) (size : Nat)
    (semanticWeight keywordWeight : W)
    (filters : Option (List (Str × FilterValue)))
    (embeddingsAvailable : Bool) : SearchAction W :=
  if pyStrip query = [] then .earlyReturn [] 0
  else
    let clauses := buildFilterClauses filters
    if embeddingsAvailable then
      .embeddingSearch query size semanticWeight keywordWeight clauses
    else
      .keywordSearch query size clauses

/-! ## Concrete instances used by counterexamples and witnesses -/

/-- Chunker parameters `chunk_size=16, overlap_size=2, min_chunk_size=5`
(all caller-configurable in `DocumentChunker.__init__`). -/
def exSmallCfg : ChunkerConfig := ⟨16, 2, 5⟩

/-- A 60-character paragraph. -/
def exParaA : Str := List.replicate 60 'a'

/-- Another 60-character paragraph. -/
def exParaB : Str := List.replicate 60 'b'

/-- A 74-character paragraph of five 14-character sentences, exceeding
`chunk_size = 16` tokens on its own. -/
def exParaBig : Str :=
  (List.replicate 4 "Abcdefghijklm. ".data).flatten ++ "Abcdefghijklm.".data

/-- Three blank-line-separated paragraphs; the third alone exceeds the
configured `chunk_size` and is recursively split. -/
def exTextC1 : Str :=
  exParaA ++ '\n' :: '\n' :: exParaB ++ '\n' :: '\n' :: exParaBig

/-- 630 characters made solely of 7-character sentences (`"Go now."`):
every paragraph is ≤ 50 characters and every sentence piece is ≤ 10
characters, so both structure filters drop everything. -/
def exTextShortSents : Str := (List.replicate 70 "Go now.\n\n".data).flatten

/-- A credential holding a stale access token, no refresh token, and an
expiry in the past. -/
def exStaleCreds : WorkerCreds :=
  { access_token := some "staletok".data, expires_at := .parsed 500 }

/-- A credential with an access token but no refresh token and no stored
expiry. -/
def exNoExpiryCreds : WorkerCreds :=
  { access_token := some "tok0".data }

/-- A credential with both tokens and an expiry in the past. -/
def exRefreshableCreds : WorkerCreds :=
  { access_token := some "oldacc".data
    refresh_token := some "oldref".data
    expires_at := .parsed 500 }

/-- A provider refresh response rotating both tokens. -/
def exToks : RefreshToks :=
  { access_token := some "newacc".data
    refresh_token := some "newref".data
    expires_at := 5000 }

/-- Listing-pass state already containing document `box:7` linked to
pair 1. -/
def exListingState : ListingState :=
  { docs := ["box:7".data]
    memb := [("box:7".data, 1)]
    totalDocsIndexed := some 5 }

/-- Prune state: one document tracked by scopes 1 and 2, with a local
copy and an index entry. -/
def exSharedPruneState : PruneState :=
  { docs := ["box:1".data]
    memb := [("box:1".data, 1), ("box:1".data, 2)]
    localFiles := ["1".data]
    esIds := ["box:1".data] }

/-- Prune state: documents `box:1`, `box:2` tracked by scope 1, `box:2`
also by scope 2. -/
def exPruneState : PruneState :=
  { docs := ["box:1".data, "box:2".data]
    memb := [("box:1".data, 1), ("box:2".data, 1), ("box:2".data, 2)]
    localFiles := ["1".data, "2".data]
    esIds := ["box:1".data, "box:2".data] }

/-- A remote tree: root with one kept file, one trashed file, one
oversized file, one wrong-extension file, and a subfolder holding a
file that passes the filters. -/
def exTree : BoxEntries :=
  .ofList
    [ .file "1".data "keep.txt".data (some 100) "active".data
    , .file "2".data "gone.txt".data (some 100) "trashed".data
    , .file "3".data "big.txt".data (some 2097153) "active".data
    , .file "4".data "skip.pdf".data (some 100) "active".data
    , .folder "5".data "sub".data
        (.ofList [ .file "6".data "deep.txt".data none "active".data ]) ]

/-- `include_exts=[".TXT"], max_size_mb=2`. -/
def exWalkCfg : WalkConfig := { include_exts := [".TXT".data], max_size_mb := some 2 }

/-- The `FileItem` the walk yields for `keep.txt` at the root of
`exTree`. -/
def exKeepItem : FileItem :=
  { id := "1".data, name := "keep.txt".data, path := [], size_bytes := some 100 }

/-!
# Theorems

Each claim of the specification corresponds to exactly one theorem below
(plus, where applicable, a closed counterexample and a closed witness).
-/

/-- **C10**: for every query that strips to nothing, `hybrid_search`
returns `{"hits": {"hits": []}, "took": 0}` without building filters,
calling the embedding service, or issuing any index query — for every
`size`, weight pair (of any type), filter set and embedding
availability. -/
theorem hybridSearch_empty_query_early {W : Type} (query : Str) (size : Nat)
    (semanticWeight keywordWeight : W)
    (filters : Option (List (Str × FilterValue))) (emb : Bool)
    (h : pyStrip query = []) :
    hybridSearch query size semanticWeight keywordWeight filters emb =
      .earlyReturn [] 0 := by
  unfold hybridSearch
  rw [if_pos h]

/-- **C10** witness: a whitespace-only query with nontrivial parameters. -/
theorem hybridSearch_empty_query_early_witness :
    hybridSearch " \t\n ".data 10 (3 : Nat) (7 : Nat)
      (some [("doc_id".data, .scalar "box:1".data)]) true =
      .earlyReturn [] 0 :=
  hybridSearch_empty_query_early " \t\n ".data 10 3 7
    (some [("doc_id".data, .scalar "box:1".data)]) true (by decide)

/-- **C4**: chunking is deterministic — equal document id, text and
configuration give equal output — and any text whose stripped length is
below `min_chunk_size` yields the empty sequence, for `SmartChunker`
(the chunker the pipeline instantiates) and for the base
`DocumentChunker` alike. -/
theorem chunking_deterministic_and_min_guard (cfg : ChunkerConfig)
    (docId text docId' text' : Str) (hd : docId = docId') (ht : text = text') :
    smartChunkDocument cfg docId text = smartChunkDocument cfg docId' text' ∧
    chunkDocument cfg docId text = chunkDocument cfg docId' text' ∧
    ((pyStrip text).length < cfg.min_chunk_size →
      smartChunkDocument cfg docId text = [] ∧
      chunkDocument cfg docId text = []) := by
  subst hd ht
  refine ⟨rfl, rfl, fun h => ⟨?_, ?_⟩⟩
  · unfold smartChunkDocument
    rw [if_pos (Or.inr h)]
  · unfold chunkDocument
    rw [if_pos (Or.inr h)]

/-- **C4** witness: a 29-character text is dropped under the default
`min_chunk_size = 100`. -/
theorem chunking_deterministic_and_min_guard_witness :
    smartChunkDocument {} "doc".data "too short to become a chunk.".data = [] ∧
    chunkDocument {} "doc".data "too short to become a chunk.".data = [] :=
  (chunking_deterministic_and_min_guard {} "doc".data
    "too short to become a chunk.".data "doc".data
    "too short to become a chunk.".data rfl rfl).2.2 (by decide)

/-- **C2** counterexample: the credential stores no refresh token and an
access token whose expiry (500) is past (`now = 1000 ≥ 500 - 300`), yet
`_get_valid_access_token` returns the stale token instead of failing. -/
theorem getValidAccessToken_returns_stale_token :
    needRefresh 1000 exStaleCreds = true ∧
    credRefresh exStaleCreds = none ∧
    (getValidAccessToken 1000 exStaleCreds none none none).result =
      some "staletok".data := by
  decide

/-- **C2** (amended): `_get_valid_access_token` raises exactly when it
ends with no usable access token.  It does fail when neither an access
token nor a refresh token is stored; but when a refresh token is missing,
or the refresh exchange fails, a stored (possibly expired) access token
is returned as-is rather than failing. -/
theorem getValidAccessToken_failure_cases (now : Int) (c : WorkerCreds)
    (exchange : Option RefreshToks) (e1 e2 : Option Str) :
    (truthyStr (credAccess c) = false ∧ truthyStr (credRefresh c) = false →
      (getValidAccessToken now c exchange e1 e2).result = none) ∧
    (truthyStr (credRefresh c) = false →
      (getValidAccessToken now c exchange e1 e2).result =
        (if truthyStr (credAccess c) then credAccess c else none) ∧
      (getValidAccessToken now c exchange e1 e2).exchanged = false) ∧
    (exchange = none →
      (getValidAccessToken now c exchange e1 e2).result =
        (if truthyStr (credAccess c) then credAccess c else none)) := by
  unfold getValidAccessToken
  refine ⟨fun ⟨ha, hr⟩ => ?_, fun hr => ?_, fun he => ?_⟩
  · simp [ha, hr]
  · simp [hr]
  · subst he
    by_cases h : needRefresh now c = true ∧ truthyStr (credRefresh c) = true <;>
      simp [h]

/-- **C2** witness: with no stored tokens at all the call fails. -/
theorem getValidAccessToken_failure_cases_witness :
    (getValidAccessToken 0 {} none none none).result = none :=
  (getValidAccessToken_failure_cases 0 {} none none none).1
    ⟨by decide, by decide⟩

/-- **C3** counterexample: the expiry is unknown (`expires_at` absent) so
the claim requires a refresh exchange, but no refresh token is stored and
`_get_valid_access_token` performs no exchange (even though the provider
would answer). -/
theorem getValidAccessToken_no_exchange_without_refresh :
    needRefresh 0 exNoExpiryCreds = true ∧
    (getValidAccessToken 0 exNoExpiryCreds (some exToks) none none).exchanged
      = false := by
  decide

/-- **C3** (amended): a refresh-token exchange is performed exactly when
the token is near/past expiry or the expiry is unknown **and** a refresh
token is available; on a successful exchange the stored access token,
refresh token (falling back to the prior one when the provider omits it)
and expiry are overwritten and the credential row is persisted before the
function returns; when no exchange happens the credential is untouched
and nothing is persisted. -/
theorem getValidAccessToken_refresh_behavior (now : Int) (c : WorkerCreds)
    (exchange : Option RefreshToks) (e1 e2 : Option Str) :
    ((getValidAccessToken now c exchange e1 e2).exchanged =
      (needRefresh now c && truthyStr (credRefresh c))) ∧
    (∀ toks, exchange = some toks →
      needRefresh now c = true → truthyStr (credRefresh c) = true →
      (getValidAccessToken now c exchange e1 e2).persisted = true ∧
      (getValidAccessToken now c exchange e1 e2).creds.access_token =
        pyOrStr toks.access_token (credAccess c) ∧
      (getValidAccessToken now c exchange e1 e2).creds.refresh_token =
        pyOrStr toks.refresh_token (credRefresh c) ∧
      (getValidAccessToken now c exchange e1 e2).creds.expires_at =
        .parsed toks.expires_at) ∧
    ((needRefresh now c && truthyStr (credRefresh c)) = false →
      (getValidAccessToken now c exchange e1 e2).creds = c ∧
      (getValidAccessToken now c exchange e1 e2).persisted = false) := by
  unfold getValidAccessToken
  refine ⟨?_, fun toks he hn hr => ?_, fun h => ?_⟩
  · cases hn : needRefresh now c <;>
      cases hr : truthyStr (credRefresh c) <;>
      cases exchange <;> simp [hn, hr]
  · subst he
    simp [hn, hr]
  · rw [Bool.and_eq_false_iff] at h
    cases exchange <;> rcases h with h | h <;> simp [h]

/-- **C3** witness: an expired credential with a refresh token is
refreshed: both tokens rotate, the new expiry is stored, and the update
is persisted; and the exchange indicator matches the gate. -/
theorem getValidAccessToken_refresh_behavior_witness :
    (getValidAccessToken 1000 exRefreshableCreds (some exToks) none none).persisted
        = true ∧
    (getValidAccessToken 1000 exRefreshableCreds (some exToks) none none).creds.access_token
        = pyOrStr exToks.access_token (credAccess exRefreshableCreds) ∧
    (getValidAccessToken 1000 exRefreshableCreds (some exToks) none none).creds.refresh_token
        = pyOrStr exToks.refresh_token (credRefresh exRefreshableCreds) ∧
    (getValidAccessToken 1000 exRefreshableCreds (some exToks) none none).creds.expires_at
        = .parsed exToks.expires_at :=
  (getValidAccessToken_refresh_behavior 1000 exRefreshableCreds
    (some exToks) none none).2.1 exToks rfl (by decide) (by decide)

/-- The per-item loop of the listing pass counts every yielded item and
never touches `total_docs_indexed`. -/
theorem listingLoop_spec (cc : Nat) (items : List Str) :
    ∀ p : ListingState × Nat,
      (items.foldl (listingStep cc) p).2 = p.2 + items.length ∧
      (items.foldl (listingStep cc) p).1.totalDocsIndexed =
        p.1.totalDocsIndexed := by
  induction items with
  | nil => intro p; simp
  | cons i is ih =>
    intro p
    rw [List.foldl_cons]
    obtain ⟨h1, h2⟩ := ih (listingStep cc p i)
    refine ⟨?_, h2.trans rfl⟩
    rw [h1]
    show p.2 + 1 + is.length = _
    simp [List.length_cons]
    omega

/-- **C6** counterexample: `box:7` is already present in the Document
Store, the listing yields exactly that document again, so zero new
documents are indexed — yet the Run records `new_docs_indexed = 1`. -/
theorem runListing_counts_existing_documents :
    (runListing 1 exListingState ["7".data]).docs = exListingState.docs ∧
    (runListing 1 exListingState ["7".data]).newDocsIndexed = 1 := by
  decide

/-- **C6** (amended): when the listing pass completes, the Run is marked
`SUCCESS` and `new_docs_indexed` is set to the number of items yielded by
the listing — counting documents that were already present and were
skipped for insertion — and the scope's last successful time is set and
its cumulative counter incremented by that same listing count. -/
theorem runListing_completion_counters (cc : Nat) (st : ListingState)
    (items : List Str) :
    (runListing cc st items).attemptSuccess = true ∧
    (runListing cc st items).lastAttemptSuccess = true ∧
    (runListing cc st items).lastSuccessfulTimeSet = true ∧
    (runListing cc st items).documentsProcessed = items.length ∧
    (runListing cc st items).newDocsIndexed = items.length ∧
    (runListing cc st items).totalDocsIndexed =
      st.totalDocsIndexed.getD 0 + items.length := by
  obtain ⟨h1, h2⟩ := listingLoop_spec cc items (st, 0)
  unfold runListing
  refine ⟨rfl, rfl, rfl, ?_, ?_, ?_⟩
  · simpa using h1
  · simpa using h1
  · simp only []
    rw [h1, h2]
    simp

/-- **C5** counterexample: `exTextShortSents` strips to 628 characters
(well above the default `min_chunk_size = 100`), yet the default-config
chunker produces no chunks at all — the whole text is an uncovered gap
far exceeding the configured overlap, and no final chunk covers the
tail. -/
theorem smartChunk_no_coverage :
    100 ≤ (pyStrip exTextShortSents).length ∧
    smartChunkDocument {} "doc".data exTextShortSents = [] := by
  decide

/-- **C5** (amended): chunk concatenation does not reconstruct the
source text in general: text units dropped by the structure filters
(paragraphs of at most 50 characters, sentence pieces of at most 10
characters) are omitted entirely, and when every unit is dropped the
chunker returns no chunks for a text of any length, leaving arbitrarily
large gaps. -/
theorem smartChunk_drops_filtered_text (cfg : ChunkerConfig)
    (docId text : Str) (hp : splitIntoParagraphs text = [])
    (hs : splitIntoSentences text = []) :
    smartChunkDocument cfg docId text = [] := by
  unfold smartChunkDocument chunkDocument
  simp [hp, hs]

/-- **C5** witness: the short-sentence text loses everything to the
filters. -/
theorem smartChunk_drops_filtered_text_witness :
    smartChunkDocument {} "doc".data exTextShortSents = [] :=
  smartChunk_drops_filtered_text {} "doc".data exTextShortSents
    (by decide) (by decide)

/-- **C1**: evaluation at the failing input.  With
`chunk_size=16, overlap_size=2, min_chunk_size=5` and three paragraphs
(60 + 60 + 74 characters, the third exceeding `chunk_size` on its own),
`SmartChunker.chunk_document` emits chunks whose `chunk_index` fields are
`[0, 1, 0, 1]` and whose ids are `doc#chunk_0, doc#chunk_1, doc#chunk_1,
doc#chunk_2`: the ordinals are not unique under the parent document, the
first recursive sub-chunk reuses the id of the chunk emitted just before
it, and even the renumbered metadata ordinals `[0, 1, 1, 2]` repeat. -/
theorem smartChunk_duplicate_ordinals :
    ((smartChunkDocument exSmallCfg "doc".data exTextC1).map fun c =>
        c.chunk_index) = [0, 1, 0, 1] ∧
    ((smartChunkDocument exSmallCfg "doc".data exTextC1).map fun c =>
        c.chunk_id) =
      ["doc#chunk_0".data, "doc#chunk_1".data, "doc#chunk_1".data,
        "doc#chunk_2".data] ∧
    ¬ ((smartChunkDocument exSmallCfg "doc".data exTextC1).map fun c =>
        c.chunk_index).Nodup ∧
    ¬ ((smartChunkDocument exSmallCfg "doc".data exTextC1).map fun c =>
        c.chunk_id).Nodup ∧
    ((smartChunkDocument exSmallCfg "doc".data exTextC1).map fun c =>
        c.md_chunk_index) = [0, 1, 1, 2] := by
  decide

/-- An admitted file passes the extension filter (when an allow-list is
configured) and the size bound (when a maximum is configured and the
entry reports a size). -/
theorem allowedItem_spec (cfg : WalkConfig) (name : Str) (size : Option Nat)
    (h : allowedItem cfg name size = true) :
    (normalizedExts cfg ≠ [] → extOf name ∈ normalizedExts cfg) ∧
    (∀ m n, cfg.max_size_mb = some m → size = some n →
      n ≤ m * 1024 * 1024) := by
  unfold allowedItem at h
  constructor
  · intro hne
    by_cases hmem : extOf name ∈ normalizedExts cfg
    · exact hmem
    · rw [if_pos ⟨hne, hmem⟩] at h
      cases h
  · intro m n hm hn
    rcases Decidable.em
        (normalizedExts cfg ≠ [] ∧ extOf name ∉ normalizedExts cfg) with
      hc | hc
    · rw [if_pos hc] at h
      cases h
    · rw [if_neg hc] at h
      unfold maxSizeBytes at h
      rw [hm, hn] at h
      simpa using h

mutual

/-- `_walk_folder` on one entry yields exactly the untrashed, admitted
files of its subtree (folders are recursed regardless of any filter). -/
theorem walkEntry_filter_spec (cfg : WalkConfig) (path : Str) (e : BoxEntry) :
    walkEntry cfg path e =
      ((allFilesEntry path e).filter (keepFile cfg)).map rawToItem := by
  cases e with
  | folder id name children =>
    simp only [walkEntry, allFilesEntry]
    exact walkEntries_filter_spec cfg (subPathOf path name) children
  | file id name size itemStatus =>
    simp only [walkEntry, allFilesEntry]
    by_cases ht : itemStatus = "trashed".data
    · simp [ht, keepFile]
    · by_cases ha : allowedItem cfg name size = true
      · simp [ht, ha, keepFile, rawToItem]
      · simp [ht, ha, keepFile, Bool.and_eq_true]

/-- `_walk_folder` on an entry sequence yields exactly the untrashed,
admitted files of its subtrees, in order. -/
theorem walkEntries_filter_spec (cfg : WalkConfig) (path : Str)
    (es : BoxEntries) :
    walkEntries cfg path es =
      ((allFilesEntries path es).filter (keepFile cfg)).map rawToItem := by
  cases es with
  | nil => rfl
  | cons e es =>
    simp only [walkEntries, allFilesEntries, List.filter_append,
      List.map_append]
    rw [walkEntry_filter_spec cfg path e, walkEntries_filter_spec cfg path es]

end

/-- **C9**: `list_all_items` yields exactly the non-trashed files of the
configured forest that pass the extension/size admission test — so
folders are recursed unconditionally (every admitted file at any depth is
yielded) — and every yielded item has its extension in a configured
non-empty allow-list, respects a configured maximum size whenever its
size is known, and stems from a non-trashed file entry. -/
theorem listAllItems_filtering (cfg : WalkConfig) (roots : List BoxEntries) :
    listAllItems cfg roots =
      ((allFilesForest roots).filter (keepFile cfg)).map rawToItem ∧
    ∀ item ∈ listAllItems cfg roots,
      (normalizedExts cfg ≠ [] → extOf item.name ∈ normalizedExts cfg) ∧
      (∀ m n, cfg.max_size_mb = some m → item.size_bytes = some n →
        n ≤ m * 1024 * 1024) ∧
      ∃ f ∈ allFilesForest roots,
        f.status ≠ "trashed".data ∧ rawToItem f = item := by
  have hmain : listAllItems cfg roots =
      ((allFilesForest roots).filter (keepFile cfg)).map rawToItem := by
    unfold listAllItems allFilesForest
    induction roots with
    | nil => rfl
    | cons r rs ih =>
      simp only [List.map_cons, List.flatten_cons, List.filter_append,
        List.map_append, walkEntries_filter_spec]
      simp only [List.map_cons, List.flatten_cons, List.filter_append,
        List.map_append] at ih
      rw [ih]
  refine ⟨hmain, fun item hitem => ?_⟩
  rw [hmain] at hitem
  obtain ⟨f, hf, hfi⟩ := List.mem_map.mp hitem
  obtain ⟨hfmem, hkeep⟩ := List.mem_filter.mp hf
  rw [keepFile, Bool.and_eq_true] at hkeep
  obtain ⟨hstat, hallowed⟩ := hkeep
  obtain ⟨h1, h2⟩ := allowedItem_spec cfg f.name f.size hallowed
  subst hfi
  refine ⟨h1, h2, f, hfmem, ?_, rfl⟩
  simpa using hstat

/-- **C9** witness: on a concrete tree with a trashed file, an oversized
file, a wrong-extension file and a nested admitted file, the walk yields
exactly the two admitted files, and the claim's conditions hold at the
root file. -/
theorem listAllItems_filtering_witness :
    listAllItems exWalkCfg [exTree] =
      ((allFilesForest [exTree]).filter (keepFile exWalkCfg)).map rawToItem ∧
    (normalizedExts exWalkCfg ≠ [] →
      extOf exKeepItem.name ∈ normalizedExts exWalkCfg) :=
  ⟨(listAllItems_filtering exWalkCfg [exTree]).1,
    (((listAllItems_filtering exWalkCfg [exTree]).2 exKeepItem (by decide))).1⟩

/-- One prune-loop iteration filters the membership table. -/
theorem pruneStep_memb (cc : Nat) (S : PruneState) (k : Nat) (d : Str) :
    (pruneStep cc (S, k) d).1.memb =
      S.memb.filter fun p => decide (¬ (p.1 = d ∧ p.2 = cc)) := by
  unfold pruneStep
  dsimp only
  split <;> rfl

/-- One prune-loop iteration leaves local files untouched. -/
theorem pruneStep_localFiles (cc : Nat) (S : PruneState) (k : Nat) (d : Str) :
    (pruneStep cc (S, k) d).1.localFiles = S.localFiles := by
  unfold pruneStep
  dsimp only
  split <;> rfl

/-- One prune-loop iteration leaves the search index untouched. -/
theorem pruneStep_esIds (cc : Nat) (S : PruneState) (k : Nat) (d : Str) :
    (pruneStep cc (S, k) d).1.esIds = S.esIds := by
  unfold pruneStep
  dsimp only
  split <;> rfl

/-- One prune-loop iteration deletes the document row exactly when no
other scope's membership link remains. -/
theorem pruneStep_docs (cc : Nat) (S : PruneState) (k : Nat) (d : Str) :
    (pruneStep cc (S, k) d).1.docs =
      if otherScopeCount S.memb cc d = 0 then
        S.docs.filter fun x => decide (x ≠ d)
      else S.docs := by
  unfold pruneStep otherScopeCount
  dsimp only
  by_cases h : (List.filter (fun p => decide (p.1 = d))
      (List.filter (fun p => decide (¬ (p.1 = d ∧ p.2 = cc))) S.memb)).length = 0
  · rw [if_pos h, if_pos h]
  · rw [if_neg h, if_neg h]

/-- One prune-loop iteration counts the document deletion. -/
theorem pruneStep_count (cc : Nat) (S : PruneState) (k : Nat) (d : Str) :
    (pruneStep cc (S, k) d).2 =
      if otherScopeCount S.memb cc d = 0 then k + 1 else k := by
  unfold pruneStep otherScopeCount
  dsimp only
  by_cases h : (List.filter (fun p => decide (p.1 = d))
      (List.filter (fun p => decide (¬ (p.1 = d ∧ p.2 = cc))) S.memb)).length = 0
  · rw [if_pos h, if_pos h]
  · rw [if_neg h, if_neg h]

/-- Deleting one scope's links for one id does not change any id's
other-scope link count. -/
theorem otherScopeCount_stable (cc : Nat) (memb : List (Str × Nat))
    (e d : Str) :
    otherScopeCount
      (memb.filter fun p => decide (¬ (p.1 = e ∧ p.2 = cc))) cc d =
      otherScopeCount memb cc d := by
  unfold otherScopeCount
  rw [List.filter_filter, List.filter_filter, List.filter_filter]
  congr 1
  apply List.filter_congr
  intro p _
  by_cases h1 : p.1 = d <;> by_cases h2 : p.2 = cc <;> simp [h1, h2]

/-- Closed form of the prune loop's effect on the membership table: it
deletes exactly this scope's links for the removed ids. -/
theorem pruneLoop_memb (cc : Nat) (rem : List Str) :
    ∀ (S : PruneState) (k : Nat),
      (rem.foldl (pruneStep cc) (S, k)).1.memb =
        S.memb.filter fun p => decide (¬ (p.1 ∈ rem ∧ p.2 = cc)) := by
  induction rem with
  | nil => intro S k; simp
  | cons d ds ih =>
    intro S k
    rw [List.foldl_cons,
      show pruneStep cc (S, k) d =
        ((pruneStep cc (S, k) d).1, (pruneStep cc (S, k) d).2) from rfl,
      ih, pruneStep_memb, List.filter_filter]
    apply List.filter_congr
    intro p _
    by_cases h1 : p.1 = d <;> by_cases h2 : p.2 = cc <;>
      by_cases h3 : p.1 ∈ ds <;> simp [h1, h2, h3]

/-- The prune loop leaves the local files untouched. -/
theorem pruneLoop_localFiles (cc : Nat) (rem : List Str) :
    ∀ (S : PruneState) (k : Nat),
      (rem.foldl (pruneStep cc) (S, k)).1.localFiles = S.localFiles := by
  induction rem with
  | nil => intro S k; rfl
  | cons d ds ih =>
    intro S k
    rw [List.foldl_cons,
      show pruneStep cc (S, k) d =
        ((pruneStep cc (S, k) d).1, (pruneStep cc (S, k) d).2) from rfl,
      ih, pruneStep_localFiles]

/-- The prune loop leaves the search index untouched. -/
theorem pruneLoop_esIds (cc : Nat) (rem : List Str) :
    ∀ (S : PruneState) (k : Nat),
      (rem.foldl (pruneStep cc) (S, k)).1.esIds = S.esIds := by
  induction rem with
  | nil => intro S k; rfl
  | cons d ds ih =>
    intro S k
    rw [List.foldl_cons,
      show pruneStep cc (S, k) d =
        ((pruneStep cc (S, k) d).1, (pruneStep cc (S, k) d).2) from rfl,
      ih, pruneStep_esIds]

/-- Closed form of the prune loop's effect on the document table: it
deletes exactly the removed ids that no other scope references. -/
theorem pruneLoop_docs (cc : Nat) (rem : List Str) :
    ∀ (S : PruneState) (k : Nat),
      (rem.foldl (pruneStep cc) (S, k)).1.docs =
        S.docs.filter fun x =>
          !(decide (x ∈ rem) && decide (otherScopeCount S.memb cc x = 0)) := by
  induction rem with
  | nil => intro S k; simp
  | cons d ds ih =>
    intro S k
    rw [List.foldl_cons,
      show pruneStep cc (S, k) d =
        ((pruneStep cc (S, k) d).1, (pruneStep cc (S, k) d).2) from rfl,
      ih]
    simp only [pruneStep_memb, otherScopeCount_stable, pruneStep_docs]
    by_cases hd : otherScopeCount S.memb cc d = 0
    · rw [if_pos hd, List.filter_filter]
      apply List.filter_congr
      intro x _
      by_cases h1 : x = d
      · subst h1
        simp [hd]
      · simp [h1]
    · rw [if_neg hd]
      apply List.filter_congr
      intro x _
      by_cases h1 : x = d
      · subst h1
        simp [hd]
      · simp [h1]

/-- Closed form of the loop's `removed_from_db` counter: the number of
removed ids that no other scope references. -/
theorem pruneLoop_count (cc : Nat) (rem : List Str) :
    ∀ (S : PruneState) (k : Nat),
      (rem.foldl (pruneStep cc) (S, k)).2 =
        k + (rem.filter fun d =>
          decide (otherScopeCount S.memb cc d = 0)).length := by
  induction rem with
  | nil => intro S k; simp
  | cons d ds ih =>
    intro S k
    rw [List.foldl_cons,
      show pruneStep cc (S, k) d =
        ((pruneStep cc (S, k) d).1, (pruneStep cc (S, k) d).2) from rfl,
      ih]
    simp only [pruneStep_memb, otherScopeCount_stable, pruneStep_count]
    by_cases hd : otherScopeCount S.memb cc d = 0
    · rw [if_pos hd]
      simp [List.filter_cons, hd]
      omega
    · rw [if_neg hd]
      simp [List.filter_cons, hd]

/-- A prune pass with nothing to remove only re-runs the local-copy
cleanup. -/
theorem prunePass_state_nil (cc : Nat) (st : PruneState) (R : List Str)
    (h : toRemove st cc R = []) :
    (prunePass cc st R).state =
      { st with
        localFiles := cleanupOrphanedFiles st.docs st.localFiles } := by
  unfold prunePass
  rw [h]
  dsimp only [List.foldl_nil]
  congr 1
  apply List.filter_eq_self.mpr
  intro i _
  simp

/-- **C7**: one prune pass removes exactly `L − R` (the scope's tracked
ids absent from the prefixed remote id set): the scope's membership link
is removed precisely for those ids, the Document Record (and its index
entries and local copy) is deleted precisely when no other scope's link
references the id, `removed_from_db` counts those deletions, and a
second pass with the same remote set removes nothing and leaves the
state unchanged.  (`hinj` states that distinct stored document ids carry
distinct provider file ids, which holds for real `box:`-prefixed ids.) -/
theorem prunePass_removes_exactly (cc : Nat) (st : PruneState)
    (R : List Str)
    (hinj : ∀ x ∈ st.docs, ∀ y ∈ st.docs,
      replaceBox x = replaceBox y → x = y) :
    (∀ d, d ∈ (prunePass cc st R).removed ↔
      d ∈ trackedIds st cc ∧ d ∉ R.map (boxPrefix ++ ·)) ∧
    (∀ p ∈ st.memb,
      p ∉ (prunePass cc st R).state.memb ↔
        p.1 ∈ (prunePass cc st R).removed ∧ p.2 = cc) ∧
    (∀ x ∈ st.docs,
      x ∉ (prunePass cc st R).state.docs ↔
        x ∈ (prunePass cc st R).removed ∧
          otherScopeCount st.memb cc x = 0) ∧
    ((prunePass cc st R).removedFromDb =
      ((prunePass cc st R).removed.filter fun d =>
        decide (otherScopeCount st.memb cc d = 0)).length) ∧
    (∀ d ∈ (prunePass cc st R).removed, otherScopeCount st.memb cc d = 0 →
      d ∉ (prunePass cc st R).state.docs ∧
      d ∉ (prunePass cc st R).state.esIds ∧
      replaceBox d ∉ (prunePass cc st R).state.localFiles) ∧
    ((prunePass cc (prunePass cc st R).state R).removed = [] ∧
      (prunePass cc (prunePass cc st R).state R).removedFromDb = 0 ∧
      (prunePass cc (prunePass cc st R).state R).state =
        (prunePass cc st R).state) := by
  have hrm : (prunePass cc st R).removed = toRemove st cc R := rfl
  have hm : (prunePass cc st R).state.memb =
      st.memb.filter fun p =>
        decide (¬ (p.1 ∈ toRemove st cc R ∧ p.2 = cc)) :=
    pruneLoop_memb cc (toRemove st cc R) st 0
  have hdocs : (prunePass cc st R).state.docs =
      st.docs.filter fun x =>
        !(decide (x ∈ toRemove st cc R) &&
          decide (otherScopeCount st.memb cc x = 0)) :=
    pruneLoop_docs cc (toRemove st cc R) st 0
  have hes : (prunePass cc st R).state.esIds =
      st.esIds.filter fun i => decide (i ∉ toRemove st cc R) := by
    show (((toRemove st cc R).foldl (pruneStep cc) (st, 0)).1.esIds.filter
      fun i => decide (i ∉ toRemove st cc R)) = _
    rw [pruneLoop_esIds]
  have hlf : (prunePass cc st R).state.localFiles =
      st.localFiles.filter fun b =>
        decide (b ∈ indexedBoxIds ((prunePass cc st R).state.docs)) := by
    show cleanupOrphanedFiles
      (((toRemove st cc R).foldl (pruneStep cc) (st, 0)).1.docs)
      (((toRemove st cc R).foldl (pruneStep cc) (st, 0)).1.localFiles) = _
    rw [pruneLoop_localFiles]
    rfl
  have hcnt : (prunePass cc st R).removedFromDb =
      ((toRemove st cc R).filter fun d =>
        decide (otherScopeCount st.memb cc d = 0)).length := by
    have := pruneLoop_count cc (toRemove st cc R) st 0
    simpa using this
  have hmem_rem : ∀ d, d ∈ toRemove st cc R ↔
      d ∈ trackedIds st cc ∧ d ∉ R.map (boxPrefix ++ ·) := by
    intro d
    unfold toRemove
    simp [List.mem_filter]
  have hsub_docs : ∀ d, d ∈ toRemove st cc R → d ∈ st.docs := by
    intro d hd
    have := (hmem_rem d).mp hd
    unfold trackedIds at this
    exact (List.mem_filter.mp this.1).1
  refine ⟨fun d => hrm ▸ hmem_rem d, ?_, ?_, hrm ▸ hcnt, ?_, ?_⟩
  · intro p hp
    rw [hrm, hm]
    simp [List.mem_filter, hp]
  · intro x hx
    rw [hrm, hdocs]
    simp [List.mem_filter, hx]
  · intro d hd h0
    rw [hrm] at hd
    refine ⟨?_, ?_, ?_⟩
    · rw [hdocs]
      simp [List.mem_filter, hd, h0]
    · rw [hes]
      simp [List.mem_filter, hd]
    · rw [hlf]
      intro hmemlf
      obtain ⟨-, hpred⟩ := List.mem_filter.mp hmemlf
      rw [decide_eq_true_eq] at hpred
      unfold indexedBoxIds at hpred
      obtain ⟨y, hy, hyeq⟩ := List.mem_map.mp hpred
      have hy' : y ∈ (prunePass cc st R).state.docs :=
        (List.mem_filter.mp hy).1
      have hyst : y ∈ st.docs := by
        rw [hdocs] at hy'
        exact (List.mem_filter.mp hy').1
      have : y = d := hinj y hyst d (hsub_docs d hd) hyeq
      subst this
      rw [hdocs] at hy'
      have := (List.mem_filter.mp hy').2
      simp [hd, h0] at this
  · have hrm2 : toRemove (prunePass cc st R).state cc R = [] := by
      apply List.filter_eq_nil_iff.mpr
      intro d hd
      unfold trackedIds at hd
      obtain ⟨hddocs, hdpred⟩ := List.mem_filter.mp hd
      rw [Bool.and_eq_true, decide_eq_true_eq] at hdpred
      obtain ⟨hpfx, hdmemb⟩ := hdpred
      rw [hm] at hdmemb
      obtain ⟨hdm, hdnot⟩ := List.mem_filter.mp hdmemb
      rw [decide_eq_true_eq] at hdnot
      have hdnrem : d ∉ toRemove st cc R := fun hc => hdnot ⟨hc, rfl⟩
      have hdst : d ∈ st.docs := by
        rw [hdocs] at hddocs
        exact (List.mem_filter.mp hddocs).1
      have hdtracked : d ∈ trackedIds st cc := by
        unfold trackedIds
        rw [List.mem_filter]
        exact ⟨hdst, by simp [hpfx, hdm]⟩
      have hdR : d ∈ R.map (boxPrefix ++ ·) := by
        by_contra hno
        exact hdnrem ((hmem_rem d).mpr ⟨hdtracked, hno⟩)
      simp [hdR]
    refine ⟨hrm2, ?_, ?_⟩
    · show ((toRemove (prunePass cc st R).state cc R).foldl (pruneStep cc)
        ((prunePass cc st R).state, 0)).2 = 0
      rw [hrm2]
      rfl
    · rw [prunePass_state_nil cc _ R hrm2]
      have h1 : cleanupOrphanedFiles (prunePass cc st R).state.docs
          (prunePass cc st R).state.localFiles =
          (prunePass cc st R).state.localFiles := by
        rw [hlf]
        unfold cleanupOrphanedFiles
        rw [List.filter_filter]
        apply List.filter_congr
        intro b _
        by_cases hb : b ∈ indexedBoxIds ((prunePass cc st R).state.docs) <;>
          simp [hb]
      rw [h1]

/-- **C7** witness: scope 1 tracks `box:1` and `box:2`; the remote set
holds only file `2`.  The pass removes exactly `box:1`, and a second
pass removes nothing. -/
theorem prunePass_removes_exactly_witness :
    ("box:1".data ∈ (prunePass 1 exPruneState ["2".data]).removed ↔
      "box:1".data ∈ trackedIds exPruneState 1 ∧
      "box:1".data ∉ ["2".data].map (boxPrefix ++ ·)) ∧
    (prunePass 1 (prunePass 1 exPruneState ["2".data]).state
      ["2".data]).removed = [] :=
  ⟨(prunePass_removes_exactly 1 exPruneState ["2".data]
      (by decide)).1 "box:1".data,
   (prunePass_removes_exactly 1 exPruneState ["2".data]
      (by decide)).2.2.2.2.2.1⟩

/-- **C8** counterexample: `box:1` is referenced by the membership links
of scopes 1 and 2 and is absent from scope 1's remote set.  Pruning
scope 1 removes only that scope's link and keeps the Document Record —
but it deletes the document's search-index entry even though scope 2
still references it. -/
theorem prune_deletes_shared_index_entries :
    "box:1".data ∈ (prunePass 1 exSharedPruneState []).removed ∧
    (prunePass 1 exSharedPruneState []).state.memb =
      [("box:1".data, 2)] ∧
    "box:1".data ∈ (prunePass 1 exSharedPruneState []).state.docs ∧
    (prunePass 1 exSharedPruneState []).state.esIds = [] := by
  decide

/-- **C8** (amended): for a document referenced by another scope's
membership link, pruning one scope removes only that scope's link and
never deletes the Document Record; the search-index entries of every
pruned id, however, are deleted unconditionally, even while another
scope still references the document. -/
theorem prunePass_cross_scope_retention (cc c2 : Nat) (st : PruneState)
    (R : List Str) (d : Str) (hne : c2 ≠ cc) (hm2 : (d, c2) ∈ st.memb) :
    ((d, c2) ∈ (prunePass cc st R).state.memb) ∧
    (d ∈ st.docs → d ∈ (prunePass cc st R).state.docs) ∧
    (d ∈ (prunePass cc st R).removed →
      d ∉ (prunePass cc st R).state.esIds) := by
  have hm : (prunePass cc st R).state.memb =
      st.memb.filter fun p =>
        decide (¬ (p.1 ∈ toRemove st cc R ∧ p.2 = cc)) :=
    pruneLoop_memb cc (toRemove st cc R) st 0
  have hdocs : (prunePass cc st R).state.docs =
      st.docs.filter fun x =>
        !(decide (x ∈ toRemove st cc R) &&
          decide (otherScopeCount st.memb cc x = 0)) :=
    pruneLoop_docs cc (toRemove st cc R) st 0
  have hes : (prunePass cc st R).state.esIds =
      st.esIds.filter fun i => decide (i ∉ toRemove st cc R) := by
    show (((toRemove st cc R).foldl (pruneStep cc) (st, 0)).1.esIds.filter
      fun i => decide (i ∉ toRemove st cc R)) = _
    rw [pruneLoop_esIds]
  have hcnt : otherScopeCount st.memb cc d ≠ 0 := by
    unfold otherScopeCount
    intro hzero
    rw [List.length_eq_zero] at hzero
    have : (d, c2) ∈ ((st.memb.filter fun p =>
        decide (¬ (p.1 = d ∧ p.2 = cc))).filter fun p =>
        decide (p.1 = d)) := by
      rw [List.mem_filter, List.mem_filter]
      refine ⟨⟨hm2, ?_⟩, by simp⟩
      simp [hne]
    rw [hzero] at this
    cases this
  refine ⟨?_, fun hdst => ?_, fun hdrem => ?_⟩
  · rw [hm, List.mem_filter]
    refine ⟨hm2, ?_⟩
    simp [hne]
  · rw [hdocs, List.mem_filter]
    refine ⟨hdst, ?_⟩
    simp [hcnt]
  · rw [hes]
    intro hmem
    have := (List.mem_filter.mp hmem).2
    rw [decide_eq_true_eq] at this
    exact this hdrem

/-- **C8** witness: in the shared two-scope state, scope 2's link and
the Document Record both survive scope 1's prune. -/
theorem prunePass_cross_scope_retention_witness :
    ("box:1".data, 2) ∈ (prunePass 1 exSharedPruneState []).state.memb ∧
    "box:1".data ∈ (prunePass 1 exSharedPruneState []).state.docs :=
  ⟨(prunePass_cross_scope_retention 1 2 exSharedPruneState [] "box:1".data
      (by decide) (by decide)).1,
   (prunePass_cross_scope_retention 1 2 exSharedPruneState [] "box:1".data
      (by decide) (by decide)).2.1 (by decide)⟩

end FileSync
